import Mathlib

/-!
Shallow embedding of the restart scheduling and trail reuse subsystem
(`src/restart.cpp`) of this CaDiCaL fork, together with proofs of the
specified properties.  The 64-bit machine counters are modelled as `Int`
(no property below depends on wrap-around, and the counters stay far from
2^63 in every concrete scenario), the `double` glue EMAs as `ℚ`, and the
external collaborators (decision heuristic, ranking predicates,
reluctant-doubling generator, backtracking) as state fields or as
definitions modelled from the spec.  Timing (`START`/`STOP`), logging and
report side effects are not modelled.
-/

namespace CaDiCaL

/-- Option fields read by `restart.cpp` (`opts.…`). -/
structure Opts where
  stabilize : Bool
  stabilizeonly : Bool
  stabilizefactor : Int
  restart : Bool
  restartmargin : Int
  restartint : Int
  restartreusetrail : Bool

/-- Tick counters (`stats.ticks`); only the `search` member is read here. -/
structure TicksCounters where
  search : Int

/-- Statistics counters touched by `restart.cpp` (`stats.…`). -/
structure Stats where
  conflicts : Int
  ticks : TicksCounters
  stabphases : Int
  restarts : Int
  restartlevels : Int
  restartstable : Int
  reused : Int
  reusedlevels : Int
  reusedstable : Int

/-- Scheduling limits (`lim.…`). -/
structure Lim where
  stabilize : Int
  restart : Int

/-- Scheduling increments (`inc.…`). -/
structure Inc where
  stabilize : Int

/-- Snapshot of the counters at the last stabilization transition
(`last.stabilize.…`). -/
structure StabSnapshot where
  conflicts : Int
  ticks : Int

/-- Container for the `last.stabilize` snapshot (`last.…`). -/
structure Last where
  stabilize : StabSnapshot

/-- Glue EMAs (`averages.current.glue.…`), modelled over `ℚ`. -/
structure GlueEMAs where
  fast : ℚ
  slow : ℚ

/-- One set of exponential moving averages (the `glue` member). -/
structure EMASet where
  glue : GlueEMAs

/-- The active (`current`) and inactive (`saved`) EMA sets. -/
structure Averages where
  current : EMASet
  saved : EMASet

/-- Modelled from the spec: `swap_averages` is defined outside this excerpt;
per the spec the two EMA sets are "swapped atomically on every phase flip so
each phase tracks its own signal history". -/
def swap_averages (a : Averages) : Averages :=
  { current := a.saved, saved := a.current }

/-- The solver state visible to `restart.cpp`.  The decision stack
`control` stores, per decision level `i`, the literal
`control[i].decision` (`0` meaning "no decision", i.e. a pseudo-decision
level; entry `0` is the root level).  The external oracles
`next_decision_variable ()`, `score_smaller (this)` and `bumped` and the
reluctant-doubling generator's current fire signal are state fields,
read-only for this subsystem. -/
structure State where
  opts : Opts
  stats : Stats
  lim : Lim
  inc : Inc
  last : Last
  stable : Bool
  level : Nat
  assumptionsSize : Nat
  control : List Int
  averages : Averages
  reluctant : Bool
  use_scores : Bool
  score_smaller : Int → Int → Bool
  next_decision_variable : Int
  bumped : Int → Int

/-- The `trivial_decisions` computation of `Internal::reuse_trail`:
`assumptions.size () + !control[assumptions.size () + 1].decision`. -/
def trivial_decisions (s : State) : Nat :=
  s.assumptionsSize +
    (if s.control.getD (s.assumptionsSize + 1) 0 = 0 then 1 else 0)

/-- The `while` loop of `Internal::reuse_trail`: starting from `res`, keep
climbing while a real decision exists at level `res + 1` and `keep` accepts
it.  `fuel` bounds the number of iterations; since the guard requires
`res < level` and `res` grows by one each round, `fuel = level` always
suffices, so with that fuel this function agrees with the C++ loop. -/
def reuse_loop (level : Nat) (control : List Int) (keep : Int → Bool) :
    Nat → Nat → Nat
  | 0, res => res
  | fuel + 1, res =>
    if res < level ∧ control.getD (res + 1) 0 ≠ 0 ∧
        keep (control.getD (res + 1) 0) = true then
      reuse_loop level control keep fuel (res + 1)
    else res

/-- The ranking test of the loop guard, one variant per mode: in score mode
a level with decision `d` is kept while
`score_smaller (this) (decision, abs (d))` holds, in activity mode while
`bumped (d) > bumped (decision)` (`decision` being the hypothetical next
decision variable). -/
def reuse_keep (s : State) : Int → Bool :=
  if s.use_scores = true then
    fun d => s.score_smaller s.next_decision_variable |d|
  else
    fun d => decide (s.bumped s.next_decision_variable < s.bumped d)

/-- The value `res` computed by `Internal::reuse_trail` (the loop result;
the two branches on `use_scores ()` of the source, with the `limit`
variable of the activity branch inlined). -/
def reuse_res (s : State) : Nat :=
  if s.use_scores = true then
    reuse_loop s.level s.control
      (fun d => s.score_smaller s.next_decision_variable |d|)
      s.level (trivial_decisions s)
  else
    reuse_loop s.level s.control
      (fun d => decide (s.bumped s.next_decision_variable < s.bumped d))
      s.level (trivial_decisions s)

/-- The function `Internal::reuse_trail`: returns the backtrack target and
the state with the reuse statistics updated. -/
def reuse_trail (s : State) : Nat × State :=
  if s.opts.restartreusetrail = false then (trivial_decisions s, s)
  else
    let res := reuse_res s
    let reused : Int := (res : Int) - (trivial_decisions s : Int)
    if 0 < reused then
      (res,
        { s with
          stats :=
            { s.stats with
              reused := s.stats.reused + 1
              reusedlevels := s.stats.reusedlevels + reused
              reusedstable :=
                if s.stable = true then s.stats.reusedstable + 1
                else s.stats.reusedstable } })
    else (res, s)

/-- Modelled from the spec: the walk rule exactly as the specification words
it ("that decision ranks lower priority than the hypothetical next
decision"; score mode: "comparator declares the existing decision
lower-priority"; activity mode: "existing decision's last-bump timestamp is
strictly less than the hypothetical decision's timestamp"), for comparison
with the code's `reuse_keep`. -/
def reuse_keep_spec (s : State) : Int → Bool :=
  if s.use_scores = true then
    fun d => s.score_smaller |d| s.next_decision_variable
  else
    fun d => decide (s.bumped d < s.bumped s.next_decision_variable)

/-- Modelled from the spec: the result `reuse_trail` would have if the walk
followed the specification's ranking direction (`reuse_keep_spec`). -/
def reuse_trail_spec (s : State) : Nat :=
  if s.opts.restartreusetrail = false then trivial_decisions s
  else
    reuse_loop s.level s.control (reuse_keep_spec s) s.level
      (trivial_decisions s)

/-- The state update of the flip branch of `Internal::stabilizing` (the code
after the early returns).  Notes: the C++ statement
`inc.stabilize *= opts.stabilizefactor * 1e-2` multiplies the `int64_t`
interval by a `double` and truncates back; it is modelled as exact integer
multiplication followed by truncating division by `100`.  The refresh of
`last.stabilize` is modelled from the spec: it happens outside this excerpt,
and per the spec the controller "computes elapsed conflicts and ticks since
the last transition", so the snapshot is set to the current counters at each
transition. -/
def stabFlip (s : State) : State :=
  let delta_ticks : Int := s.stats.ticks.search - s.last.stabilize.ticks
  let inc1 : Int :=
    if s.inc.stabilize = 0 then delta_ticks
    else if s.stable = true then
      (s.inc.stabilize * s.opts.stabilizefactor).tdiv 100
    else s.inc.stabilize
  let lim1 : Int := s.stats.ticks.search + inc1
  let lim2 : Int :=
    if lim1 ≤ s.stats.ticks.search then s.stats.ticks.search + 1 else lim1
  let stable1 : Bool := ! s.stable
  { s with
    inc := { stabilize := inc1 }
    lim := { s.lim with stabilize := lim2 }
    stable := stable1
    stats :=
      { s.stats with
        stabphases :=
          if stable1 = true then s.stats.stabphases + 1
          else s.stats.stabphases }
    averages := swap_averages s.averages
    last :=
      { stabilize :=
          { conflicts := s.stats.conflicts
            ticks := s.stats.ticks.search } } }

/-- The function `Internal::stabilizing` (timing and report side effects
omitted; the assertion of the uncalibrated branch is tracked separately by
`stabilizing_assert_ok`).  Returns the boolean result together with the
updated state. -/
def stabilizing (s : State) : Bool × State :=
  if s.opts.stabilize = false then (false, s)
  else if s.stable = true ∧ s.opts.stabilizeonly = true then (true, s)
  else if s.inc.stabilize = 0 ∧ s.stats.conflicts ≤ s.lim.stabilize then
    (false, s)
  else if s.inc.stabilize ≠ 0 ∧ s.stats.ticks.search ≤ s.lim.stabilize then
    (s.stable, s)
  else (! s.stable, stabFlip s)

/-- Validity of the `assert (!stable)` on the uncalibrated branch of
`Internal::stabilizing`: whenever that branch is reached (feature enabled,
not the stabilize-only shortcut, `inc.stabilize == 0`), the stable flag is
false. -/
def stabilizing_assert_ok (s : State) : Prop :=
  s.opts.stabilize = true →
    ¬ (s.stable = true ∧ s.opts.stabilizeonly = true) →
      s.inc.stabilize = 0 → s.stable = false

/-- The calibration invariant: the `0` interval sentinel implies the phase
is unstable. -/
def calibratedInv (s : State) : Prop :=
  s.inc.stabilize = 0 → s.stable = false

/-- External advancement of the conflict and search-tick counters between
calls (both counters are monotone and incremented outside this excerpt). -/
def advanceCounters (s : State) (dc dt : Nat) : State :=
  { s with
    stats :=
      { s.stats with
        conflicts := s.stats.conflicts + dc
        ticks := { search := s.stats.ticks.search + dt } } }

/-- States reachable from `s` by interleaving external counter advancement
with calls to `stabilizing`. -/
inductive Reach (s : State) : State → Prop
  | refl : Reach s s
  | advance {t : State} (dc dt : Nat) :
      Reach s t → Reach s (advanceCounters t dc dt)
  | call {t : State} : Reach s t → Reach s (stabilizing t).2

/-- Reachability as in `Reach`, but every `stabilizing` call made from an
uncalibrated state that is past its conflict limit (hence about to
calibrate) must observe a strictly positive tick delta since the last
transition. -/
inductive ReachPos (s : State) : State → Prop
  | refl : ReachPos s s
  | advance {t : State} (dc dt : Nat) :
      ReachPos s t → ReachPos s (advanceCounters t dc dt)
  | call {t : State}
      (h : t.inc.stabilize = 0 ∧ t.lim.stabilize < t.stats.conflicts →
        t.last.stabilize.ticks < t.stats.ticks.search) :
      ReachPos s t → ReachPos s (stabilizing t).2

/-- The function `Internal::restarting`: the per-conflict restart decision.
Returns the boolean verdict together with the state as mutated by the
internal `stabilizing ()` consultation. -/
def restarting (s : State) : Bool × State :=
  if s.opts.restart = false then (false, s)
  else if s.level < s.assumptionsSize + 2 then (false, s)
  else
    let p := stabilizing s
    if p.1 = true then (p.2.reluctant, p.2)
    else if p.2.stats.conflicts ≤ p.2.lim.restart then (false, p.2)
    else
      let f := p.2.averages.current.glue.fast
      let margin : ℚ := (100 + (p.2.opts.restartmargin : ℚ)) / 100
      let sl := p.2.averages.current.glue.slow
      let l := margin * sl
      (decide (l ≤ f), p.2)

/-- Modelled from the spec: the external backtracking primitive "truncates
assignment/decision state down to a given level", undoing all decision
frames strictly above it. -/
def backtrack (s : State) (target : Nat) : State :=
  { s with level := target, control := s.control.take (target + 1) }

/-- The function `Internal::restart`: statistics, backtrack to the reused
level, and rescheduling of the restart limit. -/
def restart (s : State) : State :=
  let s1 :=
    { s with
      stats :=
        { s.stats with
          restarts := s.stats.restarts + 1
          restartlevels := s.stats.restartlevels + (s.level : Int)
          restartstable :=
            if s.stable = true then s.stats.restartstable + 1
            else s.stats.restartstable } }
  let p := reuse_trail s1
  let s2 := backtrack p.2 p.1
  { s2 with lim := { s2.lim with restart := s2.stats.conflicts + s2.opts.restartint } }

/-! ### Concrete states used by counterexamples and witnesses -/

/-- A baseline solver state: the initial unstable, uncalibrated state with
all counters zero, the stabilize and restart features on, at decision level
zero with an empty assumption set. -/
def base : State :=
  { opts :=
      { stabilize := true
        stabilizeonly := false
        stabilizefactor := 200
        restart := true
        restartmargin := 10
        restartint := 2
        restartreusetrail := false }
    stats :=
      { conflicts := 0
        ticks := { search := 0 }
        stabphases := 0
        restarts := 0
        restartlevels := 0
        restartstable := 0
        reused := 0
        reusedlevels := 0
        reusedstable := 0 }
    lim := { stabilize := 0, restart := 0 }
    inc := { stabilize := 0 }
    last := { stabilize := { conflicts := 0, ticks := 0 } }
    stable := false
    level := 0
    assumptionsSize := 0
    control := [0]
    averages :=
      { current := { glue := { fast := 0, slow := 0 } }
        saved := { glue := { fast := 0, slow := 0 } } }
    reluctant := false
    use_scores := false
    score_smaller := fun _ _ => false
    next_decision_variable := 1
    bumped := fun _ => 0 }

/-- Scenario A of the spec: stabilize disabled, restart enabled, base
interval 5 (already installed as `lim.restart = 5`), no assumptions,
level 6, fast glue EMA 10, slow glue EMA 4, margin 0 %, conflict count 6. -/
def sA : State :=
  { base with
    opts :=
      { base.opts with stabilize := false, restartmargin := 0, restartint := 5 }
    lim := { base.lim with restart := 5 }
    stats := { base.stats with conflicts := 6 }
    level := 6
    averages :=
      { base.averages with current := { glue := { fast := 10, slow := 4 } } } }

/-- A state refuting the ranking direction of claim C1: one real decision
(literal `1`) at level 1 whose bump timestamp `0` is strictly below the
hypothetical next decision's timestamp `5`. -/
def sC1 : State :=
  { base with
    opts := { base.opts with restartreusetrail := true }
    level := 1
    control := [0, 1]
    next_decision_variable := 2
    bumped := fun v => if v = 2 then 5 else 0 }

/-- Scenario D of the spec: activity-based ranking, `trivial_decisions = 0`,
three decision levels whose bump timestamps (10, 9, 1) all exceed the
hypothetical next decision's timestamp (2) except at level 3. -/
def sD : State :=
  { base with
    opts := { base.opts with restartreusetrail := true }
    level := 3
    control := [0, 1, 2, 3]
    next_decision_variable := 4
    bumped := fun v =>
      if v = 1 then 10 else if v = 2 then 9 else if v = 3 then 1 else 2 }

/-- An uncalibrated unstable state past its conflict limit with a zero tick
delta: calling `stabilizing` flips to stable but leaves the `0` interval
sentinel in place. -/
def sFlip : State :=
  { base with stats := { base.stats with conflicts := 100 } }

/-- A calibrated state below its tick limit: `stabilizing` takes the cheap
post-calibration path. -/
def sCal : State :=
  { base with
    inc := { stabilize := 5 }
    lim := { base.lim with stabilize := 10 }
    stats := { base.stats with ticks := { search := 3 } } }

/-- A stable state with stabilize-only mode configured, at decision level 2
with the reluctant generator currently firing. -/
def sOnly : State :=
  { base with
    opts := { base.opts with stabilizeonly := true }
    stable := true
    level := 2
    reluctant := true }

/-- A disabled-reuse state at level 2 with real decisions on the stack. -/
def sC5 : State :=
  { base with level := 2, control := [0, 5, 7] }

/-- A state whose restart feature is off. -/
def sR : State :=
  { base with opts := { base.opts with restart := false } }

/-- An unstable state (stabilize off) with enough decision depth whose
conflict count has not yet reached the restart limit, but whose EMAs would
fire. -/
def sGate : State :=
  { base with
    opts := { base.opts with stabilize := false }
    lim := { base.lim with restart := 5 }
    stats := { base.stats with conflicts := 3 }
    level := 6
    averages :=
      { base.averages with current := { glue := { fast := 10, slow := 0 } } } }

/-! ### Helper lemmas -/

theorem le_reuse_loop (level : Nat) (control : List Int) (keep : Int → Bool) :
    ∀ fuel res, res ≤ reuse_loop level control keep fuel res := by
  intro fuel
  induction fuel with
  | zero => intro res; simp [reuse_loop]
  | succ n ih =>
    intro res
    simp only [reuse_loop]
    split
    · exact Nat.le_trans (Nat.le_succ res) (ih (res + 1))
    · exact Nat.le_refl res

theorem reuse_loop_le_level (level : Nat) (control : List Int)
    (keep : Int → Bool) :
    ∀ fuel res, res ≤ level → reuse_loop level control keep fuel res ≤ level := by
  intro fuel
  induction fuel with
  | zero => intro res h; simpa [reuse_loop] using h
  | succ n ih =>
    intro res h
    simp only [reuse_loop]
    split
    · next hg => exact ih (res + 1) hg.1
    · exact h

theorem reuse_loop_sound (level : Nat) (control : List Int)
    (keep : Int → Bool) :
    ∀ fuel res k, res ≤ k → k < reuse_loop level control keep fuel res →
      k < level ∧ control.getD (k + 1) 0 ≠ 0 ∧
        keep (control.getD (k + 1) 0) = true := by
  intro fuel
  induction fuel with
  | zero =>
    intro res k hk hlt
    simp only [reuse_loop] at hlt
    omega
  | succ n ih =>
    intro res k hk hlt
    simp only [reuse_loop] at hlt
    split at hlt
    · next hg =>
      rcases Nat.lt_or_ge k (res + 1) with h1 | h1
      · have hkr : k = res := by omega
        subst hkr
        exact hg
      · exact ih (res + 1) k h1 hlt
    · omega

theorem reuse_loop_stop (level : Nat) (control : List Int)
    (keep : Int → Bool) :
    ∀ fuel res, level ≤ fuel + res →
      ¬ (reuse_loop level control keep fuel res < level ∧
        control.getD (reuse_loop level control keep fuel res + 1) 0 ≠ 0 ∧
        keep (control.getD (reuse_loop level control keep fuel res + 1) 0)
          = true) := by
  intro fuel
  induction fuel with
  | zero =>
    intro res h hc
    simp only [reuse_loop] at hc
    omega
  | succ n ih =>
    intro res h
    simp only [reuse_loop]
    split
    · exact ih (res + 1) (by omega)
    · next hg => exact hg

theorem reuse_res_eq_loop (s : State) :
    reuse_res s =
      reuse_loop s.level s.control (reuse_keep s) s.level
        (trivial_decisions s) := by
  by_cases hu : s.use_scores = true <;> simp [reuse_res, reuse_keep, hu]

theorem reuse_trail_fst (s : State) :
    (reuse_trail s).1 =
      if s.opts.restartreusetrail = false then trivial_decisions s
      else reuse_res s := by
  simp only [reuse_trail]
  split_ifs <;> rfl

theorem trivial_decisions_le (s : State) :
    trivial_decisions s ≤ s.assumptionsSize + 1 := by
  unfold trivial_decisions
  split <;> omega

theorem stabFlip_stable (s : State) : (stabFlip s).stable = ! s.stable := rfl

theorem stabFlip_ticks (s : State) :
    (stabFlip s).stats.ticks.search = s.stats.ticks.search := rfl

theorem stabFlip_opts (s : State) : (stabFlip s).opts = s.opts := rfl

theorem stabFlip_inc (s : State) :
    (stabFlip s).inc.stabilize =
      (if s.inc.stabilize = 0 then
        s.stats.ticks.search - s.last.stabilize.ticks
      else if s.stable = true then
        (s.inc.stabilize * s.opts.stabilizefactor).tdiv 100
      else s.inc.stabilize) := rfl

theorem stabFlip_lim_stabilize (s : State) :
    (stabFlip s).lim.stabilize =
      (if s.stats.ticks.search + (stabFlip s).inc.stabilize ≤
          s.stats.ticks.search
       then s.stats.ticks.search + 1
       else s.stats.ticks.search + (stabFlip s).inc.stabilize) := rfl

theorem stabFlip_lim_stabilize_gt (s : State) :
    s.stats.ticks.search < (stabFlip s).lim.stabilize := by
  rw [stabFlip_lim_stabilize]
  split <;> omega

theorem stabilizing_cases (s : State) :
    (stabilizing s).2 = s ∨
      (s.opts.stabilize = true ∧
        ¬ (s.inc.stabilize = 0 ∧ s.stats.conflicts ≤ s.lim.stabilize) ∧
        ¬ (s.inc.stabilize ≠ 0 ∧ s.stats.ticks.search ≤ s.lim.stabilize) ∧
        (stabilizing s).1 = ! s.stable ∧ (stabilizing s).2 = stabFlip s) := by
  unfold stabilizing
  split_ifs with g1 g2 g3 g4
  · exact Or.inl rfl
  · exact Or.inl rfl
  · exact Or.inl rfl
  · exact Or.inl rfl
  · refine Or.inr ⟨?_, g3, g4, rfl, rfl⟩
    cases h : s.opts.stabilize
    · exact absurd h g1
    · rfl

theorem stabilizing_preserves (s : State) :
    (stabilizing s).2.stats.conflicts = s.stats.conflicts ∧
    (stabilizing s).2.lim.restart = s.lim.restart ∧
    (stabilizing s).2.opts = s.opts ∧
    (stabilizing s).2.stats.ticks.search = s.stats.ticks.search ∧
    (stabilizing s).2.reluctant = s.reluctant := by
  rcases stabilizing_cases s with h | ⟨_, _, _, _, h⟩ <;> rw [h]
  · exact ⟨rfl, rfl, rfl, rfl, rfl⟩
  · exact ⟨rfl, rfl, rfl, rfl, rfl⟩

/-! ### Claim C1 (corrected) -/

/-- C1 (amended): when trail reuse is enabled, `reuse_trail` walks upward one
level at a time starting from `trivial_decisions`, continuing while (a) a
real decision exists at level `res + 1` and (b) that existing decision ranks
HIGHER priority than the hypothetical next decision under the active ranking
mode — in activity/recency mode, while the existing decision's last-bump
timestamp is strictly GREATER than the hypothetical next decision's
timestamp (`reuse_keep`) — and stops at the first level failing the
condition or at the top of the stack. -/
theorem claimC1_amended (s : State) (h : s.opts.restartreusetrail = true) :
    (∀ k, trivial_decisions s ≤ k → k < (reuse_trail s).1 →
        k < s.level ∧ s.control.getD (k + 1) 0 ≠ 0 ∧
          reuse_keep s (s.control.getD (k + 1) 0) = true) ∧
    ¬ ((reuse_trail s).1 < s.level ∧
        s.control.getD ((reuse_trail s).1 + 1) 0 ≠ 0 ∧
        reuse_keep s (s.control.getD ((reuse_trail s).1 + 1) 0) = true) ∧
    trivial_decisions s ≤ (reuse_trail s).1 := by
  have h1 : (reuse_trail s).1 =
      reuse_loop s.level s.control (reuse_keep s) s.level
        (trivial_decisions s) := by
    rw [reuse_trail_fst, reuse_res_eq_loop]
    simp [h]
  rw [h1]
  refine ⟨?_, ?_, ?_⟩
  · intro k hk hlt
    exact reuse_loop_sound _ _ _ _ _ k hk hlt
  · exact reuse_loop_stop _ _ _ _ _ (by omega)
  · exact le_reuse_loop _ _ _ _ _

/-- C1 as stated is false: at `sC1` the single existing decision's bump
timestamp (0) is strictly LESS than the hypothetical next decision's
timestamp (5), so the claimed walk (`reuse_trail_spec`, following the
spec's wording) continues to level 1, yet the code's `reuse_trail` stops
immediately at level 0 — the code continues on strictly GREATER, not
strictly less. -/
theorem claimC1_counterexample :
    (reuse_trail sC1).1 = 0 ∧ reuse_trail_spec sC1 = 1 ∧
      sC1.control.getD (0 + 1) 0 ≠ 0 ∧
      sC1.bumped (sC1.control.getD (0 + 1) 0) <
        sC1.bumped sC1.next_decision_variable ∧
      0 < sC1.level := by
  refine ⟨?_, ?_, ?_, ?_, ?_⟩ <;> decide

/-- Witness for `claimC1_amended` at the concrete state `sC1`. -/
theorem claimC1_witness :
    sC1.opts.restartreusetrail = true ∧
      ¬ ((reuse_trail sC1).1 < sC1.level ∧
        sC1.control.getD ((reuse_trail sC1).1 + 1) 0 ≠ 0 ∧
        reuse_keep sC1 (sC1.control.getD ((reuse_trail sC1).1 + 1) 0)
          = true) ∧
      trivial_decisions sC1 ≤ (reuse_trail sC1).1 :=
  ⟨rfl, (claimC1_amended sC1 rfl).2.1, (claimC1_amended sC1 rfl).2.2⟩

/-! ### Claims C2 and C5 -/

theorem reuse_trail_stats_of_lt (t : State)
    (h : trivial_decisions t < (reuse_trail t).1) :
    (reuse_trail t).2.stats.reused = t.stats.reused + 1 ∧
    (reuse_trail t).2.stats.reusedlevels =
      t.stats.reusedlevels +
        (((reuse_trail t).1 : Int) - (trivial_decisions t : Int)) ∧
    (reuse_trail t).2.stats.reusedstable =
      (if t.stable = true then t.stats.reusedstable + 1
       else t.stats.reusedstable) := by
  by_cases he : t.opts.restartreusetrail = false
  · rw [reuse_trail_fst] at h
    simp [he] at h
  · have h1 : (reuse_trail t).1 = reuse_res t := by
      rw [reuse_trail_fst]
      simp [he]
    rw [h1] at h ⊢
    have h2 : (0 : Int) <
        (reuse_res t : Int) - (trivial_decisions t : Int) := by omega
    simp only [reuse_trail]
    rw [if_neg he, if_pos h2]
    exact ⟨rfl, rfl, rfl⟩

theorem reuse_trail_id_of_le (t : State)
    (h : (reuse_trail t).1 ≤ trivial_decisions t) :
    (reuse_trail t).2 = t := by
  by_cases he : t.opts.restartreusetrail = false
  · simp only [reuse_trail]
    rw [if_pos he]
  · have h1 : (reuse_trail t).1 = reuse_res t := by
      rw [reuse_trail_fst]
      simp [he]
    rw [h1] at h
    have h2 : ¬ ((0 : Int) <
        (reuse_res t : Int) - (trivial_decisions t : Int)) := by omega
    simp only [reuse_trail]
    rw [if_neg he, if_neg h2]

/-- C2: in activity mode with `trivial_decisions = 0` and three decision
levels whose bump timestamps exceed the hypothetical next decision's
timestamp except at level 3, `reuse_trail` returns 2; and in general,
whenever the final `res` exceeds `trivial_decisions`, the non-trivial-reuse
counter grows by 1, the cumulative reused-levels counter grows by
`res - trivial_decisions`, the stable-reuse counter grows by 1 exactly when
the phase is stable, and otherwise the state is unchanged. -/
theorem claimC2 (s : State)
    (h1 : s.opts.restartreusetrail = true)
    (h2 : s.use_scores = false)
    (h3 : s.assumptionsSize = 0)
    (h4 : s.level = 3)
    (h5 : s.control.getD 1 0 ≠ 0)
    (h6 : s.control.getD 2 0 ≠ 0)
    (h7 : s.control.getD 3 0 ≠ 0)
    (h8 : s.bumped s.next_decision_variable < s.bumped (s.control.getD 1 0))
    (h9 : s.bumped s.next_decision_variable < s.bumped (s.control.getD 2 0))
    (h10 : ¬ s.bumped s.next_decision_variable <
        s.bumped (s.control.getD 3 0)) :
    (reuse_trail s).1 = 2 ∧
    (∀ t : State, trivial_decisions t < (reuse_trail t).1 →
      (reuse_trail t).2.stats.reused = t.stats.reused + 1 ∧
      (reuse_trail t).2.stats.reusedlevels =
        t.stats.reusedlevels +
          (((reuse_trail t).1 : Int) - (trivial_decisions t : Int)) ∧
      (reuse_trail t).2.stats.reusedstable =
        (if t.stable = true then t.stats.reusedstable + 1
         else t.stats.reusedstable)) ∧
    (∀ t : State, (reuse_trail t).1 ≤ trivial_decisions t →
      (reuse_trail t).2 = t) := by
  refine ⟨?_, fun t ht => reuse_trail_stats_of_lt t ht,
    fun t ht => reuse_trail_id_of_le t ht⟩
  have htd : trivial_decisions s = 0 := by
    unfold trivial_decisions
    rw [h3, if_neg (by simpa using h5)]
  have hfst : (reuse_trail s).1 =
      reuse_loop s.level s.control
        (fun d => decide (s.bumped s.next_decision_variable < s.bumped d))
        s.level (trivial_decisions s) := by
    rw [reuse_trail_fst]
    simp [h1, reuse_res, h2]
  rw [hfst, htd, h4]
  simp only [reuse_loop]
  rw [if_pos ⟨by omega, by simpa using h5, by simpa using h8⟩,
    if_pos ⟨by omega, by simpa using h6, by simpa using h9⟩,
    if_neg]
  intro hc
  exact h10 (by simpa using hc.2.2)

/-- Witness for `claimC2` at the Scenario D state `sD`. -/
theorem claimC2_witness :
    (reuse_trail sD).1 = 2 ∧
    (reuse_trail sD).2.stats.reused = sD.stats.reused + 1 ∧
    (reuse_trail sD).2.stats.reusedlevels =
      sD.stats.reusedlevels +
        (((reuse_trail sD).1 : Int) - (trivial_decisions sD : Int)) := by
  have h := claimC2 sD rfl rfl rfl rfl (by decide) (by decide) (by decide)
    (by decide) (by decide) (by decide)
  exact ⟨h.1, (h.2.1 sD (by decide)).1, (h.2.1 sD (by decide)).2.1⟩

/-- C5: for every state with enough decision depth for `trivial_decisions`
to be well defined, the result of `reuse_trail` lies in
`[trivial_decisions, level]`; with the reuse feature disabled it is exactly
`trivial_decisions`, independent of the decision-stack contents above the
assumption frame. -/
theorem claimC5 (s : State) (h : s.assumptionsSize + 1 ≤ s.level) :
    trivial_decisions s ≤ (reuse_trail s).1 ∧
    (reuse_trail s).1 ≤ s.level ∧
    (s.opts.restartreusetrail = false →
      (reuse_trail s).1 = trivial_decisions s ∧
      ∀ c : List Int,
        (∀ i, i ≤ s.assumptionsSize + 1 → c.getD i 0 = s.control.getD i 0) →
        (reuse_trail { s with control := c }).1 = (reuse_trail s).1) := by
  have htd : trivial_decisions s ≤ s.level :=
    Nat.le_trans (trivial_decisions_le s) h
  refine ⟨?_, ?_, ?_⟩
  · rw [reuse_trail_fst]
    split_ifs
    · exact Nat.le_refl _
    · rw [reuse_res_eq_loop]
      exact le_reuse_loop _ _ _ _ _
  · rw [reuse_trail_fst]
    split_ifs
    · exact htd
    · rw [reuse_res_eq_loop]
      exact reuse_loop_le_level _ _ _ _ _ htd
  · intro hd
    have hres : (reuse_trail s).1 = trivial_decisions s := by
      rw [reuse_trail_fst]
      simp [hd]
    refine ⟨hres, ?_⟩
    intro c hc
    have e1 : (reuse_trail { s with control := c }).1 =
        trivial_decisions { s with control := c } := by
      rw [reuse_trail_fst]
      simp [hd]
    have e2 : trivial_decisions { s with control := c } =
        trivial_decisions s := by
      unfold trivial_decisions
      simp only
      rw [hc (s.assumptionsSize + 1) (Nat.le_refl _)]
    rw [e1, e2, hres]

/-- Witness for `claimC5` at the concrete state `sC5`. -/
theorem claimC5_witness :
    trivial_decisions sC5 ≤ (reuse_trail sC5).1 ∧
    (reuse_trail sC5).1 ≤ sC5.level ∧
    (reuse_trail sC5).1 = trivial_decisions sC5 :=
  ⟨(claimC5 sC5 (by decide)).1, (claimC5 sC5 (by decide)).2.1,
    ((claimC5 sC5 (by decide)).2.2 rfl).1⟩

/-! ### Claims C3 and C6 -/

/-- C3: with the restart feature enabled, enough decision depth, the phase
unstable (a side-effect-free `false` from `stabilizing`), and the conflict
count past `lim.restart`, `restarting` fires exactly when
`fast >= margin * slow` with `margin = (100 + restartmargin) / 100`. -/
theorem claimC3 (s : State)
    (h1 : s.opts.restart = true)
    (h2 : s.assumptionsSize + 2 ≤ s.level)
    (h3 : stabilizing s = (false, s))
    (h4 : s.lim.restart < s.stats.conflicts) :
    ((restarting s).1 = true ↔
      (100 + (s.opts.restartmargin : ℚ)) / 100 * s.averages.current.glue.slow
        ≤ s.averages.current.glue.fast) := by
  unfold restarting
  rw [if_neg (by simp [h1]), if_neg (by omega), h3]
  simp only
  rw [if_neg (by simp), if_neg (by omega)]
  simp [decide_eq_true_eq]

/-- Witness for `claimC3` at the Scenario A state `sA` (conflict count 6
past limit 5, fast 10, slow 4, margin 0 % — fires). -/
theorem claimC3_witness : (restarting sA).1 = true :=
  (claimC3 sA rfl (by decide) rfl (by decide)).mpr (by norm_num [sA, base])

/-- C6: `restarting` returns `false` when the feature is disabled, when the
decision depth is below `assumptions + 2`, and when the phase is unstable
with the conflict count at most `lim.restart` — in the last case regardless
of the EMA values. -/
theorem claimC6 (s : State) :
    (s.opts.restart = false → (restarting s).1 = false) ∧
    (s.level < s.assumptionsSize + 2 → (restarting s).1 = false) ∧
    ((stabilizing s).1 = false → s.stats.conflicts ≤ s.lim.restart →
      (restarting s).1 = false) := by
  refine ⟨?_, ?_, ?_⟩
  · intro h
    unfold restarting
    rw [if_pos h]
  · intro h
    by_cases g1 : s.opts.restart = false
    · unfold restarting
      rw [if_pos g1]
    · unfold restarting
      rw [if_neg g1, if_pos h]
  · intro hst hc
    simp only [restarting]
    split_ifs with g1 g2 g3 g4 <;> try rfl
    · simp [hst] at g3
    · exact absurd
        (by
          rw [(stabilizing_preserves s).1, (stabilizing_preserves s).2.1]
          exact hc)
        g4

/-- Witness for `claimC6` at the concrete states `sR` (feature off),
`base` (depth 0 below the guard) and `sGate` (unstable, conflicts 3 at
limit 5, EMAs would fire). -/
theorem claimC6_witness :
    (restarting sR).1 = false ∧ (restarting base).1 = false ∧
      (restarting sGate).1 = false :=
  ⟨(claimC6 sR).1 rfl, (claimC6 base).2.1 (by decide),
    (claimC6 sGate).2.2 (by decide) (by decide)⟩

/-! ### Claims C4 and C7 -/

/-- C4: after every phase flip performed by `stabilizing`, the new
`lim.stabilize` strictly exceeds the tick count observed at the flip; it is
`ticks + inc.stabilize` (with the freshly updated interval), forced to
`ticks + 1` whenever that sum does not strictly exceed the tick count. -/
theorem claimC4 (s : State) (h : (stabilizing s).2.stable ≠ s.stable) :
    s.stats.ticks.search < (stabilizing s).2.lim.stabilize ∧
    (stabilizing s).2.lim.stabilize =
      (if s.stats.ticks.search + (stabilizing s).2.inc.stabilize ≤
          s.stats.ticks.search
       then s.stats.ticks.search + 1
       else s.stats.ticks.search + (stabilizing s).2.inc.stabilize) := by
  rcases stabilizing_cases s with hs | ⟨_, _, _, _, hs⟩
  · rw [hs] at h
    exact absurd rfl h
  · rw [hs]
    exact ⟨stabFlip_lim_stabilize_gt s, stabFlip_lim_stabilize s⟩

/-- Witness for `claimC4` at the flipping state `sFlip`. -/
theorem claimC4_witness :
    (stabilizing sFlip).2.stable ≠ sFlip.stable ∧
      sFlip.stats.ticks.search < (stabilizing sFlip).2.lim.stabilize :=
  ⟨by decide, (claimC4 sFlip (by decide)).1⟩

/-- C7: with stabilize-only mode configured (stabilization on, stabilize-only
on) and the phase stable, `stabilizing` returns `true` and leaves the state
untouched on every call — the phase never reverts — and `restarting`
(feature on, depth guard met) returns exactly the reluctant generator's fire
signal, independent of the glue EMA values. -/
theorem claimC7 (s : State) (h0 : s.opts.stabilize = true)
    (h1 : s.opts.stabilizeonly = true) (h2 : s.stable = true) :
    stabilizing s = (true, s) ∧
    (s.opts.restart = true → s.assumptionsSize + 2 ≤ s.level →
      restarting s = (s.reluctant, s)) ∧
    (∀ n : Nat, (fun t => (stabilizing t).2)^[n] s = s) ∧
    (∀ a : Averages,
      (restarting { s with averages := a }).1 = (restarting s).1) := by
  have hst : stabilizing s = (true, s) := by
    unfold stabilizing
    rw [if_neg (by simp [h0]), if_pos ⟨h2, h1⟩]
  have hsta : ∀ a : Averages,
      stabilizing { s with averages := a } =
        (true, { s with averages := a }) := by
    intro a
    unfold stabilizing
    rw [if_neg (by simp [h0]), if_pos ⟨h2, h1⟩]
  refine ⟨hst, ?_, ?_, ?_⟩
  · intro hr hl
    unfold restarting
    rw [if_neg (by simp [hr]), if_neg (by omega), hst]
    rfl
  · intro n
    exact Function.iterate_fixed (congrArg Prod.snd hst) n
  · intro a
    by_cases hr : s.opts.restart = false
    · simp [restarting, hr]
    · by_cases hl : s.level < s.assumptionsSize + 2
      · simp [restarting, hr, hl]
      · simp [restarting, hr, hl, hst, hsta a]

/-- Witness for `claimC7` at the stabilize-only stable state `sOnly`. -/
theorem claimC7_witness :
    stabilizing sOnly = (true, sOnly) ∧
      restarting sOnly = (sOnly.reluctant, sOnly) :=
  ⟨(claimC7 sOnly rfl rfl rfl).1,
    (claimC7 sOnly rfl rfl rfl).2.1 rfl (by decide)⟩

/-! ### Claim C8 (corrected) -/

/-- C8 (amended): `stabilizing` is idempotent between calls with no counter
advancement, provided the first call either leaves the state unchanged (a
cheap path) or performs a flip that leaves a calibrated (nonzero) interval:
every further call returns the same boolean and mutates nothing.  (A flip
that installs the zero interval sentinel — a zero measured tick delta at
calibration — can immediately refire with a different result, see the
counterexample.) -/
theorem claimC8_amended (s : State)
    (h : (stabilizing s).2 = s ∨ (stabilizing s).2.inc.stabilize ≠ 0) :
    stabilizing (stabilizing s).2 = ((stabilizing s).1, (stabilizing s).2) ∧
    ∀ n : Nat, (fun t => (stabilizing t).2)^[n] (stabilizing s).2 =
      (stabilizing s).2 := by
  have key : stabilizing (stabilizing s).2 =
      ((stabilizing s).1, (stabilizing s).2) := by
    rcases stabilizing_cases s with hs | ⟨hen, hg3, hg4, hb, hs⟩
    · rw [hs]
      exact Prod.ext_iff.mpr ⟨rfl, hs⟩
    · have hinc : (stabilizing s).2.inc.stabilize ≠ 0 := by
        rcases h with h | h
        · exfalso
          have hst := congrArg State.stable h
          rw [hs, stabFlip_stable] at hst
          simp at hst
        · exact h
      rw [hs] at hinc ⊢
      rw [hb]
      unfold stabilizing
      rw [if_neg (by rw [stabFlip_opts]; simp [hen])]
      by_cases hso : (stabFlip s).stable = true ∧
          (stabFlip s).opts.stabilizeonly = true
      · rw [if_pos hso, ← stabFlip_stable s, hso.1]
      · rw [if_neg hso, if_neg (fun hc => hinc hc.1),
          if_pos ⟨hinc, by
            rw [stabFlip_ticks]
            exact Int.le_of_lt (stabFlip_lim_stabilize_gt s)⟩,
          stabFlip_stable]
  exact ⟨key, fun n => Function.iterate_fixed (congrArg Prod.snd key) n⟩

/-- C8 as stated is false: from the concrete state `sFlip` (uncalibrated,
unstable, conflict count past the limit, zero tick delta) the first call
settles by performing a flip and returns `true`, yet an immediate second
call — with no counter advancing in between — returns `false` and mutates
the state again. -/
theorem claimC8_counterexample :
    (stabilizing sFlip).1 = true ∧
    (stabilizing (stabilizing sFlip).2).1 = false ∧
    (stabilizing sFlip).2.stats.conflicts = sFlip.stats.conflicts ∧
    (stabilizing sFlip).2.stats.ticks.search =
      sFlip.stats.ticks.search := by
  refine ⟨?_, ?_, ?_, ?_⟩ <;> decide

/-- Witness for `claimC8_amended` at the calibrated cheap-path state
`sCal`. -/
theorem claimC8_witness :
    stabilizing (stabilizing sCal).2 =
      ((stabilizing sCal).1, (stabilizing sCal).2) :=
  (claimC8_amended sCal (Or.inr (by decide))).1

/-! ### Claim C9 -/

theorem reuse_trail_snd_stats_restarts (t : State) :
    (reuse_trail t).2.stats.restarts = t.stats.restarts := by
  simp only [reuse_trail]
  split_ifs <;> rfl

theorem reuse_trail_snd_stats_restartlevels (t : State) :
    (reuse_trail t).2.stats.restartlevels = t.stats.restartlevels := by
  simp only [reuse_trail]
  split_ifs <;> rfl

theorem reuse_trail_snd_stats_restartstable (t : State) :
    (reuse_trail t).2.stats.restartstable = t.stats.restartstable := by
  simp only [reuse_trail]
  split_ifs <;> rfl

theorem reuse_trail_snd_stats_conflicts (t : State) :
    (reuse_trail t).2.stats.conflicts = t.stats.conflicts := by
  simp only [reuse_trail]
  split_ifs <;> rfl

theorem reuse_trail_snd_opts (t : State) :
    (reuse_trail t).2.opts = t.opts := by
  simp only [reuse_trail]
  split_ifs <;> rfl

theorem reuse_trail_snd_control (t : State) :
    (reuse_trail t).2.control = t.control := by
  simp only [reuse_trail]
  split_ifs <;> rfl

theorem reuse_trail_fst_congr_stats (s : State) (X : Stats) :
    (reuse_trail { s with stats := X }).1 = (reuse_trail s).1 := by
  rw [reuse_trail_fst, reuse_trail_fst]
  exact if_congr Iff.rfl rfl rfl

/-- C9: `restart` increments the restart count, adds the pre-restart level
to the cumulative restart depth, increments the stable-restart count exactly
when the phase is stable, backtracks to the level returned by `reuse_trail`
(truncating the decision stack there), and reschedules
`lim.restart = conflicts + restartint`. -/
theorem claimC9 (s : State) :
    (restart s).stats.restarts = s.stats.restarts + 1 ∧
    (restart s).stats.restartlevels =
      s.stats.restartlevels + (s.level : Int) ∧
    (restart s).stats.restartstable =
      (if s.stable = true then s.stats.restartstable + 1
       else s.stats.restartstable) ∧
    (restart s).level = (reuse_trail s).1 ∧
    (restart s).control = s.control.take ((reuse_trail s).1 + 1) ∧
    (restart s).lim.restart = s.stats.conflicts + s.opts.restartint := by
  simp only [restart, backtrack]
  refine ⟨?_, ?_, ?_, ?_, ?_, ?_⟩
  · rw [reuse_trail_snd_stats_restarts]
  · rw [reuse_trail_snd_stats_restartlevels]
  · rw [reuse_trail_snd_stats_restartstable]
  · exact reuse_trail_fst_congr_stats s _
  · rw [reuse_trail_snd_control, reuse_trail_fst_congr_stats]
  · rw [reuse_trail_snd_stats_conflicts, reuse_trail_snd_opts]

/-! ### Claim C10 (corrected) -/

theorem stabilizing_calibratedInv (u : State) (hInv : calibratedInv u)
    (hcond : u.inc.stabilize = 0 ∧ u.lim.stabilize < u.stats.conflicts →
      u.last.stabilize.ticks < u.stats.ticks.search) :
    calibratedInv (stabilizing u).2 := by
  rcases stabilizing_cases u with hs | ⟨_, hg3, _, _, hs⟩
  · rw [hs]
    exact hInv
  · rw [hs]
    intro hinc
    rw [stabFlip_inc] at hinc
    rw [stabFlip_stable]
    by_cases hu0 : u.inc.stabilize = 0
    · exfalso
      have hlim : u.lim.stabilize < u.stats.conflicts := by
        by_contra hge
        exact hg3 ⟨hu0, by omega⟩
      have hdelta := hcond ⟨hu0, hlim⟩
      rw [if_pos hu0] at hinc
      omega
    · cases hstable : u.stable
      · exfalso
        rw [if_neg hu0, hstable] at hinc
        simp at hinc
        exact hu0 hinc
      · rfl

/-- C10 is false as stated: from the initial unstable uncalibrated state
`base`, advancing only the conflict counter and calling `stabilizing` once
calibrates with a zero tick delta, reaching a state that still carries the
`0` interval sentinel but is now stable — on that state the uncalibrated
branch would be taken with `stable = true`, so the branch assertion is
invalid. -/
theorem claimC10_counterexample :
    Reach base (stabilizing (advanceCounters base 1 0)).2 ∧
    ¬ stabilizing_assert_ok (stabilizing (advanceCounters base 1 0)).2 ∧
    base.inc.stabilize = 0 ∧ base.stable = false := by
  refine ⟨Reach.call (Reach.advance 1 0 Reach.refl), ?_, rfl, rfl⟩
  intro hok
  exact absurd (hok (by decide) (by decide) (by decide)) (by decide)

/-- C10 (amended): the assertion of the uncalibrated branch is valid in
every state reachable by counter advances and `stabilizing` calls from a
state satisfying the calibration invariant (in particular from the initial
unstable, uncalibrated state), provided every call made from an
uncalibrated state that is about to calibrate observes a strictly positive
tick delta since the last transition; under that proviso the `0` sentinel
never again carries a stable phase. -/
theorem claimC10_amended (s t : State) (h0 : calibratedInv s)
    (h : ReachPos s t) :
    calibratedInv t ∧ stabilizing_assert_ok t := by
  have key : calibratedInv t := by
    induction h with
    | refl => exact h0
    | advance dc dt hr ih => exact fun hinc => ih hinc
    | call hc hr ih => exact stabilizing_calibratedInv _ ih hc
  exact ⟨key, fun _ _ hinc => key hinc⟩

/-- Witness for `claimC10_amended`: a concrete `ReachPos` trace from `base`
that advances both counters and calls `stabilizing` (calibrating with a
positive tick delta). -/
theorem claimC10_witness :
    calibratedInv (stabilizing (advanceCounters base 1 1)).2 ∧
    stabilizing_assert_ok (stabilizing (advanceCounters base 1 1)).2 :=
  claimC10_amended base _ (fun _ => rfl)
    (ReachPos.call (by decide) (ReachPos.advance 1 1 ReachPos.refl))

end CaDiCaL
